import Mathlib

/-!
Shallow embedding of the go-at2plus packet and message codecs
(`pkg/at2plus`: protocol checksum, packet encode/decode, and the
group/AC control and status marshal/unmarshal functions), with
theorems checking the specification's claims about them.

Bytes are modelled as `Nat` values kept below 256 by construction
(`% 256` at every point where Go stores into a `byte`), 16-bit
quantities as `Nat` below 65536 with explicit `% 65536` wherever Go's
`uint16` arithmetic can wrap, and Go `int` fields as `Int`.  A Go
runtime panic (out-of-range slice index) is modelled by the explicit
result constructor `fault`.
-/

set_option maxRecDepth 4096

namespace AT2Plus

/-- High byte of a 16-bit value as stored by `binary.BigEndian.PutUint16`. -/
def u16hi (x : Nat) : Nat := (x / 256) % 256

/-- Low byte of a 16-bit value as stored by `binary.BigEndian.PutUint16`. -/
def u16lo (x : Nat) : Nat := x % 256

/-- The two bytes written by `binary.BigEndian.PutUint16`. -/
def putUint16 (x : Nat) : List Nat := [u16hi x, u16lo x]

/-- The value read by `binary.BigEndian.Uint16` from two bytes. -/
def getUint16 (hi lo : Nat) : Nat := hi * 256 + lo

/-- Fixed packet header magic `0x5555`. -/
def HeaderBytes : Nat := 0x5555

/-- Maximum allowed data length for a packet (constant from protocol.go). -/
def MaxDataLen : Nat := 1024

/-- One bit-iteration of the CRC16 Modbus loop:
shift right, conditionally xor with the polynomial `0xA001`. -/
def crcStep (crc : Nat) : Nat :=
  if crc % 2 = 1 then (crc / 2) ^^^ 0xA001 else crc / 2

/-- `k` iterations of the inner bit loop of `Checksum`. -/
def crcBits : Nat → Nat → Nat
  | crc, 0 => crc
  | crc, k + 1 => crcBits (crcStep crc) k

/-- `Checksum` from protocol.go: CRC16 Modbus, seed `0xFFFF`,
xor each byte into the accumulator then run 8 bit-iterations. -/
def Checksum (data : List Nat) : Nat :=
  data.foldl (fun crc b => crcBits (crc ^^^ b) 8) 0xFFFF

/-- `Packet` from protocol.go.  In Go, `Header`, `Address`, `DataLen`, `CRC`
are `uint16`, `MsgID` and `MsgType` are `uint8`, `Data` is `[]byte`. -/
structure Packet where
  Header : Nat
  Address : Nat
  MsgID : Nat
  MsgType : Nat
  DataLen : Nat
  Data : List Nat
  CRC : Nat
  deriving DecidableEq, Repr

/-- `NewPacket` from protocol.go: `DataLen` is `uint16(len(data))`
(wraps modulo 2^16); the `CRC` field is left at Go's zero value. -/
def NewPacket (address : Nat) (msgID : Nat) (msgType : Nat) (data : List Nat) :
    Packet :=
  { Header := HeaderBytes
    Address := address
    MsgID := msgID
    MsgType := msgType
    DataLen := data.length % 65536
    Data := data
    CRC := 0 }

/-- The span `buf[2 : 8+len(Data)]` built by `Encode`: address, id, type,
length field, then the payload.  This is the span the CRC is computed over. -/
def encodeFront (p : Packet) : List Nat :=
  putUint16 p.Address ++ [p.MsgID % 256, p.MsgType % 256] ++
    putUint16 p.DataLen ++ p.Data

/-- `Packet.Encode` from protocol.go.  It serialises the packet
(magic, address, id, type, big-endian length, payload, big-endian CRC of
`encodeFront`) and also assigns the computed CRC to the packet's `CRC`
field (`p.CRC = Checksum(crcData)`); the first component is the packet as
it stands after the call, the second the produced bytes. -/
def Packet.encode (p : Packet) : Packet × List Nat :=
  let front := encodeFront p
  let crc := Checksum front
  ({ p with CRC := crc }, putUint16 p.Header ++ front ++ putUint16 crc)

/-- Errors returned by `Decode`: `ErrInvalidLength`, `ErrInvalidHeader`,
and `ErrInvalidChecksum` wrapped with the expected (recomputed) and
received values. -/
inductive DecErr where
  | invalidLength : DecErr
  | invalidHeader : DecErr
  | invalidChecksum (expected got : Nat) : DecErr
  deriving DecidableEq, Repr

/-- Result of a Go function that returns `(T, error)` but can also hit a
runtime panic (out-of-range slice index): `ok` a value, `err` an error, or
`fault` for a panic. -/
inductive GoResult (ε : Type) (α : Type) where
  | ok : α → GoResult ε α
  | err : ε → GoResult ε α
  | fault : GoResult ε α
  deriving DecidableEq, Repr

/-- `Decode` from protocol.go.  `dataLen` is `uint16`, so Go evaluates
`8+dataLen+2` and `8+dataLen` modulo 2^16; the slice expressions
`data[8 : 8+dataLen]` and `binary.BigEndian.Uint16(data[8+dataLen:])`
panic (modelled as `fault`) when their wrapped bounds fall outside the
buffer. -/
def Decode (data : List Nat) : GoResult DecErr Packet :=
  if data.length < 10 then .err .invalidLength else
  let header := getUint16 (data.getD 0 0) (data.getD 1 0)
  if header ≠ HeaderBytes then .err .invalidHeader else
  let address := getUint16 (data.getD 2 0) (data.getD 3 0)
  let msgID := data.getD 4 0
  let msgType := data.getD 5 0
  let dataLen := getUint16 (data.getD 6 0) (data.getD 7 0)
  if data.length < (8 + dataLen + 2) % 65536 then .err .invalidLength else
  let hi := (8 + dataLen) % 65536
  if hi < 8 ∨ data.length < hi then .fault else
  let packetData := (data.take hi).drop 8
  if data.length < hi + 2 then .fault else
  let crcReceived := getUint16 (data.getD hi 0) (data.getD (hi + 1) 0)
  let crcCalculated := Checksum ((data.take hi).drop 2)
  if crcReceived ≠ crcCalculated then
    .err (.invalidChecksum crcCalculated crcReceived)
  else
    .ok { Header := header, Address := address, MsgID := msgID,
          MsgType := msgType, DataLen := dataLen, Data := packetData,
          CRC := crcReceived }

/-- Sub message type constants from protocol.go. -/
def SubMsgTypeGroupControl : Nat := 0x20

def SubMsgTypeGroupStatus : Nat := 0x21

def SubMsgTypeACControl : Nat := 0x22

def SubMsgTypeACStatus : Nat := 0x23

/-- Errors produced by the message codecs in messages.go:
`ErrInvalidLength`, the "invalid sub type" wrapped errors, and
"invalid group number" from `MarshalGroupControl`. -/
inductive MsgErr where
  | invalidLength : MsgErr
  | invalidSubType (b : Nat) : MsgErr
  | invalidGroupNumber : MsgErr
  deriving DecidableEq, Repr

/-- `GroupControl` from messages.go: `GroupNumber uint8`, the rest `*int`
(nil pointer = `none`). -/
structure GroupControl where
  GroupNumber : Nat
  Power : Option Int
  Value : Option Int
  Percent : Option Int
  deriving DecidableEq, Repr

/-- One 4-byte record of `MarshalGroupControl`, with its per-record
group-number range check.  `uint8(*g.Percent)` is the two's-complement
low byte, i.e. `Int.emod` by 256. -/
def groupControlRecord (g : GroupControl) : Except MsgErr (List Nat) :=
  if 15 < g.GroupNumber then .error .invalidGroupNumber else
  let valueBits : Nat :=
    match g.Value with
    | none => 0
    | some v => (if v = 0 then 2 else if v = 1 then 3 else if v = 2 then 4 else 0) <<< 5
  let powerBits : Nat :=
    match g.Power with
    | none => 0
    | some v =>
      if v = 0 then 1 else if v = 1 then 2 else if v = 2 then 3 else
      if v = 3 then 5 else 0
  let percentByte : Nat :=
    match g.Percent with
    | none => 0
    | some p => (p % 256).toNat
  .ok [g.GroupNumber, valueBits ||| powerBits, percentByte, 0]

/-- `MarshalGroupControl` from messages.go: 8-byte header block
(subtype `0x20`, zeros, big-endian repeat count, big-endian repeat
length 4) followed by one 4-byte record per group; fails at the first
record whose group number exceeds 15, producing no payload. -/
def MarshalGroupControl (groups : List GroupControl) : Except MsgErr (List Nat) := do
  let recs ← groups.mapM groupControlRecord
  .ok ([SubMsgTypeGroupControl, 0, 0, 0,
        u16hi groups.length, u16lo groups.length, 0, 0x04] ++ recs.flatten)

/-- `GroupStatus` from messages.go (`GroupNumber uint8`, `Power`/`Percent`
`int` — always byte-derived and nonnegative, so modelled as `Nat`). -/
structure GroupStatus where
  GroupNumber : Nat
  Power : Nat
  Percent : Nat
  TurboSupport : Bool
  Spill : Bool
  deriving DecidableEq, Repr

/-- The record loop of `UnmarshalGroupStatus`: record `i` is the
`repeatLen`-byte chunk at offset `8 + i*repeatLen`.  The loop body indexes
`chunk[0]`, `chunk[1]` and `chunk[6]`; when `repeatLen < 7` the access
`chunk[6]` is out of range of the chunk and Go panics (`fault`). -/
def groupStatusLoop (data : List Nat) (repeatLen : Nat) :
    Nat → Nat → GoResult MsgErr (List GroupStatus)
  | _, 0 => .ok []
  | i, k + 1 =>
    let chunk := (data.drop (8 + i * repeatLen)).take repeatLen
    if 6 < repeatLen then
      let c0 := chunk.getD 0 0
      let g : GroupStatus :=
        { GroupNumber := c0 &&& 0x3F
          Power := (c0 >>> 6) &&& 0x03
          Percent := (chunk.getD 1 0) &&& 0x7F
          TurboSupport := ((chunk.getD 6 0) &&& 0x80) != 0
          Spill := ((chunk.getD 6 0) &&& 0x02) != 0 }
      match groupStatusLoop data repeatLen (i + 1) k with
      | .ok gs => .ok (g :: gs)
      | r => r
    else .fault

/-- `UnmarshalGroupStatus` from messages.go: checks the 8-byte header is
present, the subtype byte is `0x21`, and that the buffer holds
`8 + count*repeatLen` bytes, then decodes `count` records. -/
def UnmarshalGroupStatus (data : List Nat) : GoResult MsgErr (List GroupStatus) :=
  if data.length < 8 then .err .invalidLength else
  let subType := data.getD 0 0
  if subType ≠ SubMsgTypeGroupStatus then .err (.invalidSubType subType) else
  let count := getUint16 (data.getD 4 0) (data.getD 5 0)
  let repeatLen := getUint16 (data.getD 6 0) (data.getD 7 0)
  if data.length < 8 + count * repeatLen then .err .invalidLength else
  groupStatusLoop data repeatLen 0 count

/-- `ACControl` from messages.go: `ACNumber uint8`, the rest `*int`. -/
structure ACControl where
  ACNumber : Nat
  Power : Option Int
  Mode : Option Int
  FanSpeed : Option Int
  Setpoint : Option Int
  deriving DecidableEq, Repr

/-- One 4-byte record of `MarshalACControl`.  The AC number is stored as
`ac.ACNumber & 0x0F`; no range check is performed and no error can arise.
`uint8(*ac.Mode << 4)` and `uint8(*ac.FanSpeed)` are two's-complement low
bytes (`Int.emod` 256); the setpoint byte is `max(0, setpoint*10-100)`
truncated to a byte. -/
def acControlRecord (ac : ACControl) : List Nat :=
  let powerBits : Nat :=
    match ac.Power with
    | none => 0
    | some p =>
      if p = 1 then 1 else if p = 2 then 2 else if p = 3 then 3 else
      if p = 4 then 4 else if p = 5 then 5 else 0
  let b1 := (powerBits <<< 4) ||| (ac.ACNumber &&& 0x0F)
  let modeBits : Nat :=
    match ac.Mode with
    | none => 0
    | some m => ((m * 16) % 256).toNat
  let fanBits : Nat :=
    match ac.FanSpeed with
    | none => 0
    | some f => (f % 256).toNat
  let b2 := modeBits ||| fanBits
  match ac.Setpoint with
  | none => [b1, b2, 0x00, 0]
  | some sp => [b1, b2, 0x40, ((max (sp * 10 - 100) 0) % 256).toNat]

/-- `MarshalACControl` from messages.go: 8-byte header block (subtype
`0x22`, zeros, big-endian count, big-endian repeat length 4) followed by
one 4-byte record per AC; it always returns a payload and a nil error. -/
def MarshalACControl (acs : List ACControl) : Except MsgErr (List Nat) :=
  .ok ([SubMsgTypeACControl, 0, 0, 0,
        u16hi acs.length, u16lo acs.length, 0, 0x04] ++
       (acs.map acControlRecord).flatten)

/-- `ACStatus` from messages.go.  `Setpoint = (chunk[2]+100)/10` is
nonnegative so kept as `Nat`; `Temperature = (raw-500)/10` uses Go `int`
division (truncation toward zero, `Int.tdiv`). -/
structure ACStatus where
  ACNumber : Nat
  Power : Nat
  Mode : Nat
  FanSpeed : Nat
  Setpoint : Nat
  Temperature : Int
  Turbo : Bool
  Bypass : Bool
  Spill : Bool
  Timer : Bool
  ErrorCode : Nat
  deriving DecidableEq, Repr

/-- The record loop of `UnmarshalACStatus`.  The body indexes `chunk[0]`
through `chunk[6]` (bytes 1–7 of the record); when `repeatLen < 7` the
accesses past the chunk end make Go panic (`fault`). -/
def acStatusLoop (data : List Nat) (repeatLen : Nat) :
    Nat → Nat → GoResult MsgErr (List ACStatus)
  | _, 0 => .ok []
  | i, k + 1 =>
    let chunk := (data.drop (8 + i * repeatLen)).take repeatLen
    if 6 < repeatLen then
      let c0 := chunk.getD 0 0
      let c1 := chunk.getD 1 0
      let c3 := chunk.getD 3 0
      let tempVal := getUint16 (chunk.getD 4 0) (chunk.getD 5 0)
      let a : ACStatus :=
        { ACNumber := c0 &&& 0x0F
          Power := (c0 >>> 4) &&& 0x0F
          Mode := (c1 >>> 4) &&& 0x0F
          FanSpeed := c1 &&& 0x0F
          Setpoint := (chunk.getD 2 0 + 100) / 10
          Temperature := ((tempVal : Int) - 500).tdiv 10
          Turbo := (c3 &&& 0x10) != 0
          Bypass := (c3 &&& 0x08) != 0
          Spill := (c3 &&& 0x04) != 0
          Timer := (c3 &&& 0x02) != 0
          ErrorCode := chunk.getD 6 0 }
      match acStatusLoop data repeatLen (i + 1) k with
      | .ok as => .ok (a :: as)
      | r => r
    else .fault

/-- `UnmarshalACStatus` from messages.go: checks the 8-byte header is
present, the subtype byte is `0x23`, and that the buffer holds
`8 + count*repeatLen` bytes, then decodes `count` records. -/
def UnmarshalACStatus (data : List Nat) : GoResult MsgErr (List ACStatus) :=
  if data.length < 8 then .err .invalidLength else
  let subType := data.getD 0 0
  if subType ≠ SubMsgTypeACStatus then .err (.invalidSubType subType) else
  let count := getUint16 (data.getD 4 0) (data.getD 5 0)
  let repeatLen := getUint16 (data.getD 6 0) (data.getD 7 0)
  if data.length < 8 + count * repeatLen then .err .invalidLength else
  acStatusLoop data repeatLen 0 count

/-- The 18-byte span from the spec's literal vector (address through payload
of the "turn off the second group" example). -/
def specCrcSpan : List Nat :=
  [0x80, 0xB0, 0x01, 0xC0, 0x00, 0x0C, 0x20, 0x00, 0x00, 0x00, 0x00, 0x01,
   0x00, 0x04, 0x01, 0x02, 0x00, 0x00]

/-- The 12-byte group-control payload of the spec example. -/
def specPayload : List Nat :=
  [0x20, 0x00, 0x00, 0x00, 0x00, 0x01, 0x00, 0x04, 0x01, 0x02, 0x00, 0x00]

/-- C1: `Checksum` of the 18-byte spec span is the 16-bit value `0x64FD`,
whose big-endian storage is the byte pair `0x64 0xFD` of the spec vector. -/
theorem checksum_spec_vector :
    Checksum specCrcSpan = 0x64FD ∧ putUint16 (Checksum specCrcSpan) = [0x64, 0xFD] := by
  decide

/-- C2: encoding a packet with address `0x80B0`, id `0x01`, type `0xC0` and
the 12-byte spec payload produces exactly the spec's byte vector
`555580b001c0000c20000000000100040102000064fd`. -/
theorem encode_spec_vector :
    (NewPacket 0x80B0 0x01 0xC0 specPayload).encode.2 =
      [0x55, 0x55, 0x80, 0xB0, 0x01, 0xC0, 0x00, 0x0C, 0x20, 0x00, 0x00, 0x00,
       0x00, 0x01, 0x00, 0x04, 0x01, 0x02, 0x00, 0x00, 0x64, 0xFD] := by
  decide

/-- `x &&& 0x0F` is reduction modulo 16. -/
theorem and_fifteen (a : Nat) : a &&& 15 = a % 16 :=
  Nat.and_pow_two_sub_one_eq_mod a 4

/-- The length of the bytes produced by `Encode` is
header(2) + front(6 + payload) + CRC(2). -/
theorem encode_bytes_length (p : Packet) :
    p.encode.2.length = 10 + p.Data.length := by
  simp [Packet.encode, encodeFront, putUint16]
  omega

/-- C7: `UnmarshalACStatus` on the 8-byte counted header `230000000001000A`
followed by the record `101278C002DA00008000` yields exactly one record with
acNumber 0, power 1 (on), mode 1 (heat), fan 2 (low), setpoint 22
(`(0x78+100)/10`), temperature 23 (big-endian `(0x02DA-500)/10`) and
error code 0. -/
theorem unmarshal_ac_status_spec_vector :
    UnmarshalACStatus
      [0x23, 0x00, 0x00, 0x00, 0x00, 0x01, 0x00, 0x0A,
       0x10, 0x12, 0x78, 0xC0, 0x02, 0xDA, 0x00, 0x00, 0x80, 0x00] =
    .ok [{ ACNumber := 0, Power := 1, Mode := 1, FanSpeed := 2, Setpoint := 22,
           Temperature := 23, Turbo := false, Bypass := false, Spill := false,
           Timer := false, ErrorCode := 0 }] := by
  decide

/-- C8: `MarshalGroupControl` on the single record
`{group = 1, power = off}` (power off is input value 1, encoded as binary
`010`) produces exactly the 12-byte payload `200000000001000401020000`. -/
theorem marshal_group_control_spec_vector :
    MarshalGroupControl
      [{ GroupNumber := 1, Power := some 1, Value := none, Percent := none }] =
    .ok specPayload := by
  rfl

/-- C10: `MarshalACControl` succeeds on every input (it has no error path);
the encoded record depends only on the AC number's low four bits
(`ACNumber & 0x0F`), so an out-of-range AC number silently encodes as a
different AC; by contrast `MarshalGroupControl` rejects an out-of-range
group number (16) with an error. -/
theorem ac_control_marshal_total_and_masks :
    (∀ acs : List ACControl, ∃ bs, MarshalACControl acs = .ok bs) ∧
    (∀ (a : Nat) (p m f s : Option Int),
      acControlRecord { ACNumber := a, Power := p, Mode := m,
                        FanSpeed := f, Setpoint := s } =
      acControlRecord { ACNumber := a % 16, Power := p, Mode := m,
                        FanSpeed := f, Setpoint := s }) ∧
    MarshalGroupControl
      [{ GroupNumber := 16, Power := none, Value := none, Percent := none }] =
    .error .invalidGroupNumber := by
  refine ⟨fun acs => ⟨_, rfl⟩, fun a p m f s => ?_, by rfl⟩
  have h : a &&& 0x0F = a % 16 &&& 0x0F := by
    rw [and_fifteen, and_fifteen]
    omega
  cases s <;> simp [acControlRecord, h]

/-- C5: the status decoders do not validate the wire-supplied repeat length
against the record bytes they index: with repeat length 4 (smaller than the
record byte 7 they read) and a buffer that passes the total-length check,
both `UnmarshalGroupStatus` and `UnmarshalACStatus` index past the end of
the 4-byte record and Go panics (`fault`) instead of returning an error. -/
theorem unmarshal_status_small_repeat_len_fault :
    UnmarshalGroupStatus
      [0x21, 0x00, 0x00, 0x00, 0x00, 0x01, 0x00, 0x04, 0, 0, 0, 0] = .fault ∧
    UnmarshalACStatus
      [0x23, 0x00, 0x00, 0x00, 0x00, 0x01, 0x00, 0x04, 0, 0, 0, 0] = .fault := by
  decide

/-- C6: `Encode` performs no maximum-length validation: on a payload of
1025 bytes (exceeding `MaxDataLen = 1024`) it produces the full
1035-byte frame rather than failing (its Go signature has no error
return, and `ErrDataLenExceeded` is never used). -/
theorem encode_oversized_payload_no_error :
    MaxDataLen < (List.replicate 1025 (0 : Nat)).length ∧
    (NewPacket 0x80B0 0x01 0xC0 (List.replicate 1025 (0 : Nat))).encode.2.length =
      1035 := by
  refine ⟨by simp [MaxDataLen], ?_⟩
  rw [encode_bytes_length]
  simp [NewPacket]

/-- C4: `Decode` returns the too-short error on a 4-byte buffer, the
invalid-header error on wrong magic, and the checksum error carrying both
the recomputed and received values on a flipped trailing byte; but on a
10-byte buffer with valid magic whose declared length is `0xFFFF`, the Go
`uint16` computation of `8+dataLen+2` wraps to 9, the length guard passes,
and the slice `data[8 : 8+dataLen]` (bounds wrapped to `[8:7]`) panics
(`fault`) instead of returning the too-short error the spec requires. -/
theorem decode_error_cases_and_overflow_fault :
    Decode [0x55, 0x55, 0x80, 0xB0] = .err .invalidLength ∧
    Decode [0xAA, 0xBB, 0x80, 0xB0, 0x01, 0xC0, 0x00, 0x00, 0x83, 0x2F] =
      .err .invalidHeader ∧
    Decode
      [0x55, 0x55, 0xB0, 0x80, 0x01, 0xC0, 0x00, 0x18, 0x21, 0x00, 0x00, 0x00,
       0x00, 0x02, 0x00, 0x08, 0x00, 0x00, 0x00, 0x00, 0x00, 0x00, 0x80, 0x00,
       0x41, 0x32, 0x00, 0x00, 0x00, 0x00, 0x02, 0x00, 0xFF, 0xFF] =
      .err (.invalidChecksum 0x832F 0xFFFF) ∧
    Decode [0x55, 0x55, 0x00, 0x00, 0x00, 0x00, 0xFF, 0xFF, 0x00, 0x00] =
      .fault := by
  decide

/-- C9 counterexample: `Encode` does not leave the packet unchanged — on
the spec-example packet the `CRC` field is 0 before the call and `0x64FD`
after it. -/
theorem encode_crc_mutation_counterexample :
    (NewPacket 0x80B0 0x01 0xC0 specPayload).encode.1.CRC ≠
      (NewPacket 0x80B0 0x01 0xC0 specPayload).CRC := by
  decide

/-- C9 amended: `Encode` leaves the header, address, id, type, length and
payload fields unchanged, but overwrites the `CRC` field with the checksum
of the encoded span `address..payload`. -/
theorem encode_fields_changed_only_crc (p : Packet) :
    (p.encode.1.Header = p.Header ∧ p.encode.1.Address = p.Address ∧
     p.encode.1.MsgID = p.MsgID ∧ p.encode.1.MsgType = p.MsgType ∧
     p.encode.1.DataLen = p.DataLen ∧ p.encode.1.Data = p.Data) ∧
    p.encode.1.CRC = Checksum (encodeFront p) := by
  refine ⟨⟨?_, ?_, ?_, ?_, ?_, ?_⟩, ?_⟩ <;> simp [Packet.encode]


theorem u16hi_lt (x : Nat) : u16hi x < 256 := Nat.mod_lt _ (by norm_num)

theorem u16lo_lt (x : Nat) : u16lo x < 256 := Nat.mod_lt _ (by norm_num)

theorem crcStep_lt {crc : Nat} (h : crc < 65536) : crcStep crc < 65536 := by
  unfold crcStep
  split
  · have hx : crc / 2 < 2 ^ 16 := by omega
    have hy : (0xA001 : Nat) < 2 ^ 16 := by norm_num
    have := Nat.xor_lt_two_pow hx hy
    omega
  · omega

theorem crcBits_lt : ∀ (k : Nat) {crc : Nat}, crc < 65536 → crcBits crc k < 65536
  | 0, _, h => h
  | k + 1, _, h => crcBits_lt k (crcStep_lt h)

theorem crcFold_lt (l : List Nat) : ∀ seed : Nat, seed < 65536 → (∀ b ∈ l, b < 256) →
    l.foldl (fun crc b => crcBits (crc ^^^ b) 8) seed < 65536 := by
  induction l with
  | nil => intro seed hs _; simpa using hs
  | cons b t ih =>
    intro seed hs h
    simp only [List.foldl_cons]
    have hb : b < 256 := h b (List.mem_cons_self b t)
    have hseed : seed ^^^ b < 65536 := by
      have hx : seed < 2 ^ 16 := by omega
      have hy : b < 2 ^ 16 := by omega
      have := Nat.xor_lt_two_pow hx hy
      omega
    exact ih _ (crcBits_lt 8 hseed) (fun x hx => h x (List.mem_cons_of_mem b hx))

theorem Checksum_lt (l : List Nat) (h : ∀ b ∈ l, b < 256) : Checksum l < 65536 :=
  crcFold_lt l 0xFFFF (by norm_num) h

theorem getUint16_hi_lo (x : Nat) : getUint16 (u16hi x) (u16lo x) = x % 65536 := by
  unfold getUint16 u16hi u16lo
  omega

theorem take_eight_add {α : Type} (x1 x2 x3 x4 x5 x6 x7 x8 : α) (d e : List α) :
    List.take (8 + d.length) ([x1, x2, x3, x4, x5, x6, x7, x8] ++ (d ++ e)) =
      [x1, x2, x3, x4, x5, x6, x7, x8] ++ d := by
  have h := @List.take_append _ [x1, x2, x3, x4, x5, x6, x7, x8] (d ++ e) d.length
  simp only [List.length_cons, List.length_nil] at h
  rw [List.take_append_of_le_length (Nat.le_refl d.length), List.take_length] at h
  norm_num at h
  exact h

theorem getD_eight_add {α : Type} (x1 x2 x3 x4 x5 x6 x7 x8 : α) (rest : List α)
    (k : Nat) (d : α) :
    ([x1, x2, x3, x4, x5, x6, x7, x8] ++ rest).getD (8 + k) d = rest.getD k d := by
  have h := List.getD_append_right [x1, x2, x3, x4, x5, x6, x7, x8] rest d (8 + k) (by simp)
  simpa using h

/-- C3: for every address, id, type and byte payload within `MaxDataLen`,
decoding the bytes produced by encoding the packet succeeds and returns a
packet equal, field for field, to the packet as it stands after `Encode`
(header, address, id, type, length, payload and checksum). -/
theorem decode_encode_roundtrip (address msgID msgType : Nat) (data : List Nat)
    (ha : address < 65536) (hid : msgID < 256) (hty : msgType < 256)
    (hdata : ∀ b ∈ data, b < 256) (hlen : data.length ≤ MaxDataLen) :
    Decode ((NewPacket address msgID msgType data).encode.2) =
      .ok ((NewPacket address msgID msgType data).encode.1) := by
  have hmax : data.length ≤ 1024 := hlen
  have hmod : data.length % 65536 = data.length := Nat.mod_eq_of_lt (by omega)
  have hmid : msgID % 256 = msgID := Nat.mod_eq_of_lt hid
  have hmty : msgType % 256 = msgType := Nat.mod_eq_of_lt hty
  have hP : NewPacket address msgID msgType data =
      { Header := 21845, Address := address, MsgID := msgID, MsgType := msgType,
        DataLen := data.length, Data := data, CRC := 0 } := by
    simp [NewPacket, HeaderBytes, hmod]
  rw [hP]
  set P : Packet :=
      { Header := 21845, Address := address, MsgID := msgID, MsgType := msgType,
        DataLen := data.length, Data := data, CRC := 0 } with hPdef
  have hfront : encodeFront P =
      [u16hi address, u16lo address, msgID % 256, msgType % 256,
       u16hi data.length, u16lo data.length] ++ data := by
    simp [hPdef, encodeFront, putUint16]
  have hfb : ∀ b ∈ encodeFront P, b < 256 := by
    rw [hfront]
    intro b hb
    rcases List.mem_append.1 hb with hb | hb
    · simp only [List.mem_cons, List.not_mem_nil, or_false] at hb
      rcases hb with h | h | h | h | h | h <;> subst h
      · exact u16hi_lt address
      · exact u16lo_lt address
      · omega
      · omega
      · exact u16hi_lt data.length
      · exact u16lo_lt data.length
    · exact hdata b hb
  set crc := Checksum (encodeFront P) with hcrc_def
  have hcrc_lt : crc < 65536 := Checksum_lt _ hfb
  have hcrc2 : Checksum
      ([u16hi address, u16lo address, msgID % 256, msgType % 256,
        u16hi data.length, u16lo data.length] ++ data) = crc := by
    rw [← hfront]
  have hbytes : P.encode.2 =
      [u16hi 21845, u16lo 21845, u16hi address, u16lo address,
       msgID % 256, msgType % 256, u16hi data.length, u16lo data.length] ++
      (data ++ [u16hi crc, u16lo crc]) := by
    rw [Packet.encode]
    simp only [← hcrc_def]
    rw [hfront]
    simp [hPdef, putUint16]
  have henc1 : P.encode.1 =
      { Header := 21845, Address := address, MsgID := msgID, MsgType := msgType,
        DataLen := data.length, Data := data, CRC := crc } := by
    rw [Packet.encode]
  rw [hbytes, henc1]
  set eight : List Nat := [u16hi 21845, u16lo 21845, u16hi address, u16lo address,
      msgID % 256, msgType % 256, u16hi data.length, u16lo data.length] with h8
  set B : List Nat := eight ++ (data ++ [u16hi crc, u16lo crc]) with hB
  have hL : B.length = 10 + data.length := by
    rw [hB, h8]
    simp
    omega
  have g01 : getUint16 (B.getD 0 0) (B.getD 1 0) = HeaderBytes := by
    rw [hB, h8]; rfl
  have g23 : getUint16 (B.getD 2 0) (B.getD 3 0) = address := by
    rw [hB, h8]
    show getUint16 (u16hi address) (u16lo address) = address
    rw [getUint16_hi_lo]
    exact Nat.mod_eq_of_lt ha
  have g4 : B.getD 4 0 = msgID % 256 := by rw [hB, h8]; rfl
  have g5 : B.getD 5 0 = msgType % 256 := by rw [hB, h8]; rfl
  have g67 : getUint16 (B.getD 6 0) (B.getD 7 0) = data.length := by
    rw [hB, h8]
    show getUint16 (u16hi data.length) (u16lo data.length) = data.length
    rw [getUint16_hi_lo, hmod]
  have htake : B.take (8 + data.length) = eight ++ data := by
    rw [hB, h8]
    exact take_eight_add _ _ _ _ _ _ _ _ data [u16hi crc, u16lo crc]
  have hdrop8 : (eight ++ data).drop 8 = data := by rw [h8]; rfl
  have hcrc3 : Checksum ((eight ++ data).drop 2) = crc := by
    rw [h8]
    show Checksum ([u16hi address, u16lo address, msgID % 256, msgType % 256,
      u16hi data.length, u16lo data.length] ++ data) = crc
    exact hcrc2
  have ghi : B.getD (8 + data.length) 0 = u16hi crc := by
    rw [hB, h8, getD_eight_add]
    rw [List.getD_append_right _ _ _ _ (Nat.le_refl data.length)]
    simp
  have ghi1 : B.getD (8 + data.length + 1) 0 = u16lo crc := by
    rw [hB, h8]
    rw [show 8 + data.length + 1 = 8 + (data.length + 1) by omega, getD_eight_add]
    rw [List.getD_append_right _ _ _ _ (by omega)]
    have h1 : data.length + 1 - data.length = 1 := by omega
    rw [h1]
    rfl
  have grecv : getUint16 (B.getD (8 + data.length) 0) (B.getD (8 + data.length + 1) 0) = crc := by
    rw [ghi, ghi1, getUint16_hi_lo]
    exact Nat.mod_eq_of_lt hcrc_lt
  have hm2 : (8 + data.length + 2) % 65536 = 10 + data.length := by omega
  have hm3 : (8 + data.length) % 65536 = 8 + data.length := by omega
  have hc1 : ¬ (10 + data.length < 10) := by omega
  have hc4 : ¬ (8 + data.length < 8) := by omega
  have hc5 : ¬ (10 + data.length < 8 + data.length) := by omega
  have hc6 : ¬ (10 + data.length < 8 + data.length + 2) := by omega
  simp only [Decode, hL, g01, g23, g4, g5, g67, hm2, hm3, htake, hdrop8, hcrc3,
    grecv, hc1, hc4, hc5, hc6, ne_eq, not_true_eq_false, lt_self_iff_false,
    or_self, if_false, ite_false, if_true, ite_true, not_false_eq_true,
    HeaderBytes, hmid, hmty]

/-- C3 witness: the round-trip law instantiated at the spec's concrete
example packet. -/
theorem decode_encode_roundtrip_witness :
    Decode ((NewPacket 0x80B0 0x01 0xC0 specPayload).encode.2) =
      .ok ((NewPacket 0x80B0 0x01 0xC0 specPayload).encode.1) :=
  decode_encode_roundtrip 0x80B0 0x01 0xC0 specPayload (by decide) (by decide)
    (by decide) (by decide) (by decide)

end AT2Plus
